import Mathlib

/-!
Shallow embedding of the recommendation filter pipeline of the course
recommendation backend (backend/routes/recommendation_routes.py and
backend/models.py), together with theorems settling the specification
claims about it.

The database tables are modelled as immutable lists of records; the
SQLAlchemy queries used by the code become list operations:
`Module.query.filter_by(name=n).first()` is `List.find?`,
`TopicByModule.query.filter_by(name=n).all()` is `List.filter`, and the
Python accumulation loops (`filtered_list.append` inside `for`) become
`List.foldl` with `acc ++ [x]`.
-/

namespace CS310

/-- Embedding of the `Module` model (models.py): only the columns the
recommendation pipeline reads. `positive_reviews` is a nullable integer
column, hence `Option Int`. -/
structure Module where
  name : String
  positive_reviews : Option Int
deriving Repr, DecidableEq

/-- Embedding of the `TopicByModule` model (models.py): the columns read by
`filter_by_aspect`. `positive_reviews_topic` is nullable. -/
structure TopicByModule where
  name : String
  topic : String
  positive_reviews_topic : Option Int
deriving Repr, DecidableEq

/-- Embedding of `filter_by_feelings` (recommendation_routes.py, lines
263-312).  If `selected_importance > 2` the shortlist is returned
unchanged; otherwise the Python loop appends each module name whose
`Module` row is found (`.first()` on the name) and whose
`positive_reviews` is non-null and at least 70.  A missing row or a null
or low percentage drops the name (`continue` / else-branch).  The
`except` branch of the source cannot fire in this pure model. -/
def filter_by_feelings (catalog : List Module) (current_shortlist : List String)
    (selected_importance : Int) : List String :=
  if selected_importance > 2 then current_shortlist
  else
    current_shortlist.foldl (fun filtered_list module_name =>
      match catalog.find? (fun m => m.name == module_name) with
      | none => filtered_list
      | some module_data =>
        match module_data.positive_reviews with
        | none => filtered_list
        | some p => if p ≥ 70 then filtered_list ++ [module_name] else filtered_list) []

/-- Embedding of the inner topic test of `filter_by_aspect`
(recommendation_routes.py, lines 239-246): the topic row matches when its
`topic` is among the selected aspects and its `positive_reviews_topic` is
non-null and at least 70. -/
def aspect_topic_matches (selected_aspects : List String) (t : TopicByModule) : Bool :=
  selected_aspects.contains t.topic &&
    match t.positive_reviews_topic with
    | none => false
    | some p => decide (p ≥ 70)

/-- Embedding of `filter_by_aspect` (recommendation_routes.py, lines
209-260).  Empty aspect selection is a no-op; otherwise each shortlist
name is kept when some `TopicByModule` row with that module name passes
`aspect_topic_matches` (the Python `for`/`break` search is `List.any`
over the rows returned by the `filter_by(name=...)` query). -/
def filter_by_aspect (table : List TopicByModule) (current_shortlist : List String)
    (selected_aspects : List String) : List String :=
  if selected_aspects.isEmpty then current_shortlist
  else
    current_shortlist.foldl (fun filtered_list module_name =>
      let module_topics := table.filter (fun t => t.name == module_name)
      if module_topics.any (aspect_topic_matches selected_aspects) then
        filtered_list ++ [module_name]
      else filtered_list) []

/-- The hardcoded category-to-modules dictionary `modules_each_cat` of
`filter_by_subject` (recommendation_routes.py, lines 339-359), as an
association list in the source's order. -/
def modules_each_cat : List (String × List String) :=
  [("AI & Machine Learning", ["Machine Learning", "Applied Machine Learning in Python", "Mobile Robots"]),
   ("Algorithms", ["Algorithmic Toolbox", "Data Structures and Algorithms in Java"]),
   ("Big Data", ["Introduction to Big Data", "Cloud Computing Fundamentals"]),
   ("Business & Technology", ["Digital Business Models"]),
   ("C++ Programming", ["Object-Oriented Data Structures in C++"]),
   ("Cyber Security", ["Information Security: Context and Introduction", "Computer Networks and Security", "Ethical Hacking and Penetration Testing"]),
   ("Data Analytics", ["Data Analytics for Lean Six Sigma"]),
   ("Data Management", ["Research Data Management and Sharing"]),
   ("Data Science", ["The Data Scientist’s Toolbox", "Introduction to Data Science in Python"]),
   ("Data Visualization", ["Applied Plotting, Charting & Data Representation in Python"]),
   ("Databases", ["Using Databases with Python", "SQL for Data Science", "Database Administration with PostgreSQL"]),
   ("Financial Analysis", ["Python and Statistics for Financial Analysis"]),
   ("Problem Solving", ["Computational Thinking for Problem Solving"]),
   ("Programming Basics", ["Programming Fundamentals", "Introduction to Computer Programming"]),
   ("Programming Languages", ["Programming Languages, Part A"]),
   ("Python & Web Development", ["Full-Stack Web Development with React"]),
   ("Python Programming", ["Programming for Everybody (Getting Started with Python)", "Python Basics", "Python Functions, Files, and Dictionaries", "Python Programming: A Concise Introduction"]),
   ("Quantum Computing", ["The Introduction to Quantum Computing", "Quantum Information Theory"]),
   ("Software Engineering", ["Object-Oriented Design", "Mobile App Development with Flutter", "Software Testing and Quality Assurance", "Microservices Architecture"])]

/-- Embedding of `filter_by_subject` (recommendation_routes.py, lines
315-379).  Empty category selection is a no-op; otherwise the allowed set
is accumulated by iterating the selected categories and adding the mapped
module list for every category found in `modules_each_cat` (unknown
categories only log a warning, i.e. contribute nothing), and the
shortlist is filtered by membership in that set (the source's list
comprehension). -/
def filter_by_subject (current_shortlist : List String)
    (selected_categories : List String) : List String :=
  if selected_categories.isEmpty then current_shortlist
  else
    let allowed_modules := selected_categories.foldl (fun allowed category =>
      match modules_each_cat.find? (fun e => e.1 == category) with
      | some e => allowed ++ e.2
      | none => allowed) []
    current_shortlist.filter (fun module_name => allowed_modules.contains module_name)

/-- The modules mapped to one category by `modules_each_cat`; an unknown
category maps to nothing. Spec-side helper used to characterise
`filter_by_subject`. -/
def categoryModules (category : String) : List String :=
  match modules_each_cat.find? (fun e => e.1 == category) with
  | some e => e.2
  | none => []

/-- Spec-side keep predicate of the feelings filter: the module's catalog
row (first row with that name) exists and has a non-null
`positive_reviews` of at least 70. -/
def feelingsKeep (catalog : List Module) (module_name : String) : Bool :=
  match catalog.find? (fun m => m.name == module_name) with
  | none => false
  | some m =>
    match m.positive_reviews with
    | none => false
    | some p => decide (p ≥ 70)

/-- Spec-side keep predicate of the aspect filter: some topic row carries
this module's name, a selected topic, and a non-null score of at least
70. -/
def aspectKeep (table : List TopicByModule) (selected_aspects : List String)
    (module_name : String) : Bool :=
  (table.filter (fun t => t.name == module_name)).any (aspect_topic_matches selected_aspects)

/-- Spec-side keep predicate of the subject filter: the module belongs to
the union, over the selected categories, of the mapped module lists. -/
def subjectKeep (selected_categories : List String) (module_name : String) : Bool :=
  selected_categories.any (fun c => (categoryModules c).contains module_name)

/-- One iteration of the priority loop of `generate_user_recommendations`
(recommendation_routes.py, lines 150-168): priority 1 applies the
feelings filter, 2 the subject filter, 3 the aspect filter, and any other
value only logs a warning and leaves the shortlist unchanged.  The `Nat`
component counts how many times `filter_by_feelings` has been invoked,
making the "filter is applied" events of the spec observable. -/
def priority_step (catalog : List Module) (table : List TopicByModule)
    (selected_importance : Int) (selected_categories selected_aspects : List String)
    (acc : List String × Nat) (priority : Int) : List String × Nat :=
  if priority = 1 then (filter_by_feelings catalog acc.1 selected_importance, acc.2 + 1)
  else if priority = 2 then (filter_by_subject acc.1 selected_categories, acc.2)
  else if priority = 3 then (filter_by_aspect table acc.1 selected_aspects, acc.2)
  else acc

/-- Embedding of the filtering core of `generate_user_recommendations`
(recommendation_routes.py, lines 129-179): seed the shortlist with every
catalog module name, run the priority-ordered filter pass, then — per
line 172, `if selected_importance <= 2 and 1 not in priority_order` —
apply the feelings filter one extra time.  Returns the final shortlist
together with the number of `filter_by_feelings` invocations. -/
def generate_recommendations_core (catalog : List Module) (table : List TopicByModule)
    (priority_order : List Int) (selected_importance : Int)
    (selected_categories selected_aspects : List String) : List String × Nat :=
  let shortlist := catalog.map (fun m => m.name)
  let passed := priority_order.foldl
    (priority_step catalog table selected_importance selected_categories selected_aspects)
    (shortlist, 0)
  if selected_importance ≤ 2 ∧ (1 : Int) ∉ priority_order then
    (filter_by_feelings catalog passed.1 selected_importance, passed.2 + 1)
  else passed

/-- Embedding of `User.add_recommended_module` (models.py, lines 141-154)
acting on the decoded `recommended_modules` list: append the name only
when it is not already present (otherwise nothing changes and nothing is
committed). -/
def add_recommended_module (modules : List String) (module_name : String) : List String :=
  if module_name ∈ modules then modules else modules ++ [module_name]

/-- Embedding of `User.remove_recommended_module` (models.py, lines
156-169): remove the first occurrence of the name when present,
otherwise leave the list unchanged. -/
def remove_recommended_module (modules : List String) (module_name : String) : List String :=
  if module_name ∈ modules then modules.erase module_name else modules

/-- The reset-then-commit path of `generate_user_recommendations`
(recommendation_routes.py, lines 93-110 and 182-195): snapshot the
current `recommended_modules`, remove each snapshotted entry one by one,
then add each surviving shortlist name one by one.  Returns the stored
list after the run. -/
def run_reset_and_commit (recs0 shortlist : List String) : List String :=
  let cleared := recs0.foldl remove_recommended_module recs0
  shortlist.foldl add_recommended_module cleared

/-- A single stored-list mutation through the `User` model API. -/
inductive RecOp where
  | add (module_name : String)
  | remove (module_name : String)
deriving Repr, DecidableEq

/-- Apply one `RecOp` to the decoded `recommended_modules` list. -/
def apply_rec_op (modules : List String) : RecOp → List String
  | .add m => add_recommended_module modules m
  | .remove m => remove_recommended_module modules m

/-! ## Bridging lemmas between the source loops and `List.filter` -/

/-- A Python accumulation loop that appends `x` when `p x` holds is
`List.filter` prefixed by the accumulator. -/
theorem foldl_append_filter {α : Type} (p : α → Bool) (l : List α) :
    ∀ init : List α,
      l.foldl (fun acc x => if p x then acc ++ [x] else acc) init = init ++ l.filter p := by
  induction l with
  | nil => intro init; simp
  | cons x xs ih =>
    intro init
    cases hp : p x with
    | true => simp [List.foldl_cons, hp, ih, List.filter_cons]
    | false => simp [List.foldl_cons, hp, ih, List.filter_cons]

/-- The feelings filter is the identity above importance 2 and otherwise
keeps exactly the names passing `feelingsKeep`, in order. -/
theorem filter_by_feelings_eq (catalog : List Module) (L : List String) (imp : Int) :
    filter_by_feelings catalog L imp =
      if imp > 2 then L else L.filter (feelingsKeep catalog) := by
  unfold filter_by_feelings
  by_cases h : imp > 2
  · simp [h]
  · simp only [h, if_false]
    have hstep : (fun (filtered_list : List String) (module_name : String) =>
        match catalog.find? (fun m => m.name == module_name) with
        | none => filtered_list
        | some module_data =>
          match module_data.positive_reviews with
          | none => filtered_list
          | some p => if p ≥ 70 then filtered_list ++ [module_name] else filtered_list) =
        (fun acc x => if feelingsKeep catalog x then acc ++ [x] else acc) := by
      funext acc x
      unfold feelingsKeep
      cases catalog.find? (fun m => m.name == x) with
      | none => simp
      | some m =>
        cases hm : m.positive_reviews with
        | none => simp [hm]
        | some p => by_cases hp : p ≥ 70 <;> simp [hm, hp]
    rw [hstep, foldl_append_filter]
    simp

/-- The aspect filter is the identity on an empty aspect selection and
otherwise keeps exactly the names passing `aspectKeep`, in order. -/
theorem filter_by_aspect_eq (table : List TopicByModule) (L : List String)
    (aspects : List String) :
    filter_by_aspect table L aspects =
      if aspects.isEmpty then L else L.filter (aspectKeep table aspects) := by
  unfold filter_by_aspect
  by_cases h : aspects.isEmpty
  · simp [h]
  · simp only [h, if_false]
    have hstep : (fun (filtered_list : List String) (module_name : String) =>
        let module_topics := table.filter (fun t => t.name == module_name)
        if module_topics.any (aspect_topic_matches aspects) then
          filtered_list ++ [module_name]
        else filtered_list) =
        (fun acc x => if aspectKeep table aspects x then acc ++ [x] else acc) := by
      funext acc x
      rfl
    rw [hstep, foldl_append_filter]
    simp

/-- Accumulated membership in the allowed-modules union built by
`filter_by_subject`: a name is in the union iff it was in the initial
accumulator or some selected category maps to it. -/
theorem subject_allowed_contains (cats : List String) :
    ∀ (init : List String) (m : String),
      (cats.foldl (fun allowed category =>
        match modules_each_cat.find? (fun e => e.1 == category) with
        | some e => allowed ++ e.2
        | none => allowed) init).contains m
      = (init.contains m || subjectKeep cats m) := by
  induction cats with
  | nil => intro init m; simp [subjectKeep]
  | cons c cs ih =>
    intro init m
    simp only [List.foldl_cons]
    cases hf : modules_each_cat.find? (fun e => e.1 == c) with
    | none =>
      rw [ih]
      simp [subjectKeep, categoryModules, hf]
    | some e =>
      rw [ih]
      simp [subjectKeep, categoryModules, hf, Bool.or_assoc]

/-- The subject filter is the identity on an empty category selection and
otherwise keeps exactly the names passing `subjectKeep`, in order. -/
theorem filter_by_subject_eq (L : List String) (cats : List String) :
    filter_by_subject L cats =
      if cats.isEmpty then L else L.filter (subjectKeep cats) := by
  unfold filter_by_subject
  by_cases h : cats.isEmpty
  · simp [h]
  · simp only [h, if_false]
    apply List.filter_congr
    intro m _
    rw [subject_allowed_contains]
    simp

/-- Filtering twice by the same predicate is filtering once. -/
theorem filter_idem {α : Type} (p : α → Bool) (l : List α) :
    (l.filter p).filter p = l.filter p := by
  rw [List.filter_filter]
  apply List.filter_congr
  intro x _
  simp

/-! ## Counting feelings-filter applications in the priority pass -/

/-- One priority step bumps the feelings-application counter exactly when
the priority value is 1. -/
theorem priority_step_count (catalog : List Module) (table : List TopicByModule)
    (imp : Int) (cats aspects : List String) (acc : List String × Nat) (p : Int) :
    (priority_step catalog table imp cats aspects acc p).2 =
      acc.2 + (if p = 1 then 1 else 0) := by
  unfold priority_step
  by_cases h1 : p = 1
  · simp [h1]
  · by_cases h2 : p = 2
    · simp [h1, h2]
    · by_cases h3 : p = 3
      · simp [h1, h2, h3]
      · simp [h1, h2, h3]

/-- The priority-ordered pass invokes the feelings filter once per
occurrence of priority value 1. -/
theorem priority_fold_count (catalog : List Module) (table : List TopicByModule)
    (imp : Int) (cats aspects : List String) (po : List Int) :
    ∀ acc : List String × Nat,
      (po.foldl (priority_step catalog table imp cats aspects) acc).2 =
        acc.2 + po.count 1 := by
  induction po with
  | nil => intro acc; simp
  | cons p ps ih =>
    intro acc
    simp only [List.foldl_cons]
    rw [ih, priority_step_count, List.count_cons]
    by_cases h1 : p = 1
    · simp [h1]
      omega
    · simp [h1]

/-! ## Stored recommendation list lemmas -/

/-- Removing, one by one, every entry of a snapshot of the stored list
from the stored list leaves it empty (the reset loop of the
orchestrator). -/
theorem remove_all_snapshot (l : List String) :
    l.foldl remove_recommended_module l = [] := by
  induction l with
  | nil => rfl
  | cons x xs ih =>
    have hx : remove_recommended_module (x :: xs) x = xs := by
      unfold remove_recommended_module
      rw [if_pos (List.mem_cons_self x xs), List.erase_cons_head]
    simp only [List.foldl_cons, hx, ih]

/-- Membership after `add_recommended_module`: the name is in the result
iff it was present already or is the added one. -/
theorem mem_add_recommended (modules : List String) (x m : String) :
    m ∈ add_recommended_module modules x ↔ m ∈ modules ∨ m = x := by
  unfold add_recommended_module
  by_cases hx : x ∈ modules
  · simp only [if_pos hx]
    constructor
    · exact Or.inl
    · rintro (hm | rfl)
      · exact hm
      · exact hx
  · simp [if_neg hx]

/-- Membership after the commit loop: a name is stored iff it was stored
before the loop or occurs in the shortlist. -/
theorem mem_foldl_add (shortlist : List String) :
    ∀ (init : List String) (m : String),
      m ∈ shortlist.foldl add_recommended_module init ↔ m ∈ init ∨ m ∈ shortlist := by
  induction shortlist with
  | nil => intro init m; simp
  | cons x xs ih =>
    intro init m
    simp only [List.foldl_cons]
    rw [ih, mem_add_recommended, List.mem_cons]
    tauto

/-- `add_recommended_module` preserves duplicate-freeness. -/
theorem add_recommended_nodup {modules : List String} (h : modules.Nodup)
    (x : String) : (add_recommended_module modules x).Nodup := by
  unfold add_recommended_module
  by_cases hx : x ∈ modules
  · simpa [if_pos hx]
  · rw [if_neg hx]
    simp [List.nodup_append, h, hx]

/-- `remove_recommended_module` preserves duplicate-freeness. -/
theorem remove_recommended_nodup {modules : List String} (h : modules.Nodup)
    (x : String) : (remove_recommended_module modules x).Nodup := by
  unfold remove_recommended_module
  by_cases hx : x ∈ modules
  · rw [if_pos hx]
    exact h.erase x
  · rwa [if_neg hx]

/-! ## Claim theorems -/

/-- C1 fails on the code: with `selected_importance = 1` and
`priority_order = [1]`, the orchestrator performs only one
feelings-filter application (the one from the priority pass), not the
two the claim's unconditional extra application would give, because line
172 guards the extra application with `1 not in priority_order`. -/
theorem C1_counterexample :
    ¬ ((generate_recommendations_core [⟨"A", some 85⟩] [] [1] 1 [] []).2 =
        ([1] : List Int).count 1 + 1) := by
  decide

/-- C1 (amended): after the priority-ordered pass, whenever
`selected_importance ≤ 2`, the feelings filter is applied one extra time
if and only if priority value 1 did not appear in the user's
`priority_order`; the total number of feelings-filter applications is
the number of occurrences of 1 in `priority_order`, plus one exactly
when 1 is absent from it. -/
theorem C1_extra_feelings_application (catalog : List Module) (table : List TopicByModule)
    (po : List Int) (imp : Int) (cats aspects : List String) (h : imp ≤ 2) :
    (generate_recommendations_core catalog table po imp cats aspects).2 =
      po.count 1 + (if (1 : Int) ∈ po then 0 else 1) := by
  simp only [generate_recommendations_core]
  by_cases hm : (1 : Int) ∈ po
  · rw [if_neg (by tauto : ¬ (imp ≤ 2 ∧ (1 : Int) ∉ po))]
    rw [priority_fold_count]
    simp [hm]
  · rw [if_pos (⟨h, hm⟩ : imp ≤ 2 ∧ (1 : Int) ∉ po)]
    simp only []
    rw [priority_fold_count]
    simp [hm]

/-- Witness for the amended C1 at a concrete input: importance 1 with
priority order `[2]` (no priority 1), so one extra feelings application
happens. -/
theorem C1_extra_feelings_application_witness :
    (1 : Int) ≤ 2 ∧
      (generate_recommendations_core [⟨"A", some 85⟩] [] [2] 1 [] []).2 =
        ([2] : List Int).count 1 + (if (1 : Int) ∈ ([2] : List Int) then 0 else 1) :=
  ⟨by decide, C1_extra_feelings_application [⟨"A", some 85⟩] [] [2] 1 [] [] (by decide)⟩

/-- C2: `filter_by_feelings` is the identity whenever the importance
exceeds 2, and otherwise returns exactly the order-preserving sublist of
names whose catalog row exists (first row by name) and has
`positive_reviews` non-null and at least 70; a missing row or a null or
sub-70 percentage excludes the name. -/
theorem C2_filter_by_feelings_spec (catalog : List Module) (L : List String) (imp : Int) :
    filter_by_feelings catalog L imp =
      if imp > 2 then L else L.filter (feelingsKeep catalog) :=
  filter_by_feelings_eq catalog L imp

/-- C3: `filter_by_subject` is the identity on an empty category
selection, and otherwise returns exactly the members of the shortlist
that lie in the union of the mapped module lists of the selected
categories; categories absent from the static map contribute nothing and
raise no error, and no new name is ever added. -/
theorem C3_filter_by_subject_spec (L cats : List String) :
    filter_by_subject L cats =
      if cats.isEmpty then L else L.filter (subjectKeep cats) :=
  filter_by_subject_eq L cats

/-- C4: `filter_by_aspect` is the identity on an empty aspect selection,
and otherwise keeps a candidate exactly when at least one
`TopicByModule` row with that module name has its topic among the
selected aspects and a non-null `positive_reviews_topic` of at least 70,
preserving relative order. -/
theorem C4_filter_by_aspect_spec (table : List TopicByModule) (L aspects : List String) :
    filter_by_aspect table L aspects =
      if aspects.isEmpty then L else L.filter (aspectKeep table aspects) :=
  filter_by_aspect_eq table L aspects

/-- C5: each of the three filters is idempotent with a fixed second
argument and fixed catalog and topic tables. -/
theorem C5_filters_idempotent (catalog : List Module) (table : List TopicByModule)
    (L : List String) (imp : Int) (cats aspects : List String) :
    filter_by_feelings catalog (filter_by_feelings catalog L imp) imp
        = filter_by_feelings catalog L imp
    ∧ filter_by_subject (filter_by_subject L cats) cats = filter_by_subject L cats
    ∧ filter_by_aspect table (filter_by_aspect table L aspects) aspects
        = filter_by_aspect table L aspects := by
  refine ⟨?_, ?_, ?_⟩
  · by_cases h : imp > 2
    · simp [filter_by_feelings_eq, h]
    · simp [filter_by_feelings_eq, h, filter_idem]
  · by_cases h : cats.isEmpty
    · simp [filter_by_subject_eq, h]
    · simp [filter_by_subject_eq, h, filter_idem]
  · by_cases h : aspects.isEmpty
    · simp [filter_by_aspect_eq, h]
    · simp [filter_by_aspect_eq, h, filter_idem]

/-- C6: for nonempty category and aspect selections, the subject and
aspect filters return order-preserving sublists of their input — neither
ever introduces a name that was not in the input. -/
theorem C6_filters_never_add (table : List TopicByModule) (L cats aspects : List String)
    (hc : cats ≠ []) (ha : aspects ≠ []) :
    List.Sublist (filter_by_subject L cats) L
    ∧ List.Sublist (filter_by_aspect table L aspects) L := by
  have hc' : cats.isEmpty = false := by
    cases cats with
    | nil => exact absurd rfl hc
    | cons c cs => rfl
  have ha' : aspects.isEmpty = false := by
    cases aspects with
    | nil => exact absurd rfl ha
    | cons a as => rfl
  constructor
  · rw [filter_by_subject_eq, hc']
    simp
  · rw [filter_by_aspect_eq, ha']
    simp

/-- Witness for C6 at a concrete input with nonempty selections. -/
theorem C6_filters_never_add_witness :
    List.Sublist (filter_by_subject ["Machine Learning"] ["Algorithms"]) ["Machine Learning"]
    ∧ List.Sublist (filter_by_aspect [] ["Machine Learning"] ["neural networks"]) ["Machine Learning"] :=
  C6_filters_never_add [] ["Machine Learning"] ["Algorithms"] ["neural networks"]
    (List.cons_ne_nil _ _) (List.cons_ne_nil _ _)

/-- C7: when the run completes with no persistence errors, the stored
`recommended_modules` after the reset-then-commit path holds exactly the
names of the new shortlist — every pre-existing entry is gone and every
shortlist name is present (mutual inclusion of the stored list and the
shortlist). -/
theorem C7_reset_correctness (recs0 shortlist : List String)
    (_h : ∃ m ∈ recs0, m ∉ shortlist) :
    run_reset_and_commit recs0 shortlist ⊆ shortlist
    ∧ shortlist ⊆ run_reset_and_commit recs0 shortlist := by
  simp only [run_reset_and_commit]
  rw [remove_all_snapshot]
  constructor
  · intro m hm
    rcases (mem_foldl_add shortlist [] m).mp hm with h0 | h1
    · cases h0
    · exact h1
  · intro m hm
    exact (mem_foldl_add shortlist [] m).mpr (Or.inr hm)

/-- Witness for C7: a user holding a stale entry absent from the new
shortlist ends up storing exactly the new shortlist. -/
theorem C7_reset_correctness_witness :
    run_reset_and_commit ["Old Module"] ["Machine Learning"] ⊆ ["Machine Learning"]
    ∧ ["Machine Learning"] ⊆ run_reset_and_commit ["Old Module"] ["Machine Learning"] :=
  C7_reset_correctness ["Old Module"] ["Machine Learning"]
    ⟨"Old Module", by decide, by decide⟩

/-- C8: the subject and aspect filters commute, and consequently the
orchestrator's filtering produces the same final shortlist under
priority order `[3, 2]` as under `[2, 3]`, for any fixed catalog and
topic table. -/
theorem C8_subject_aspect_commute (catalog : List Module) (table : List TopicByModule)
    (L cats aspects : List String) (imp : Int) :
    filter_by_subject (filter_by_aspect table L aspects) cats
        = filter_by_aspect table (filter_by_subject L cats) aspects
    ∧ (generate_recommendations_core catalog table [3, 2] imp cats aspects).1
        = (generate_recommendations_core catalog table [2, 3] imp cats aspects).1 := by
  have key : ∀ M : List String,
      filter_by_subject (filter_by_aspect table M aspects) cats
        = filter_by_aspect table (filter_by_subject M cats) aspects := by
    intro M
    simp only [filter_by_subject_eq, filter_by_aspect_eq]
    by_cases hc : cats.isEmpty
    · by_cases ha : aspects.isEmpty
      · simp [hc, ha]
      · simp [hc, ha]
    · by_cases ha : aspects.isEmpty
      · simp [hc, ha]
      · simp only [hc, ha, if_false, Bool.false_eq_true]
        rw [List.filter_filter, List.filter_filter]
        apply List.filter_congr
        intro x _
        exact Bool.and_comm _ _
  refine ⟨key L, ?_⟩
  simp only [generate_recommendations_core, List.foldl_cons, List.foldl_nil, priority_step]
  norm_num
  rw [key]

/-- C9: the stored `recommended_modules` list stays duplicate-free under
every sequence of `add_recommended_module` and
`remove_recommended_module` operations started from a duplicate-free
list. -/
theorem C9_recommended_modules_nodup (ops : List RecOp) :
    ∀ recs : List String, recs.Nodup → (ops.foldl apply_rec_op recs).Nodup := by
  induction ops with
  | nil => intro recs h; simpa using h
  | cons op ops ih =>
    intro recs h
    simp only [List.foldl_cons]
    apply ih
    cases op with
    | add m => exact add_recommended_nodup h m
    | remove m => exact remove_recommended_nodup h m

/-- Witness for C9: a concrete operation sequence with a repeated add on
the initially empty default list yields a duplicate-free stored list. -/
theorem C9_recommended_modules_nodup_witness :
    (([RecOp.add ("A"), RecOp.add ("A"), RecOp.remove ("B"), RecOp.add ("B")]).foldl
      apply_rec_op []).Nodup :=
  C9_recommended_modules_nodup
    [RecOp.add ("A"), RecOp.add ("A"), RecOp.remove ("B"), RecOp.add ("B")] []
    List.nodup_nil

/-- C10: the subject filter preserves the relative order of its input —
its output is a subsequence of the input list consisting of the
survivors in their original order, for every category selection
including the empty one. -/
theorem C10_filter_by_subject_order (L cats : List String) :
    List.Sublist (filter_by_subject L cats) L := by
  rw [filter_by_subject_eq]
  by_cases h : cats.isEmpty
  · simp [h]
  · simp [h]

end CS310
